import Mathlib

/-!
# Verification of the claude-chat-search ingestion-and-search core

A shallow embedding of `src/app.py` (the single-file Flask app that indexes
conversation logs into an FTS table and serves search queries), together with
proofs about the embedded definitions.

Modelling conventions:
* Parsed JSON values (what `json.loads` returns) are the inductive type `Json`;
  numbers are modelled as `Int` (no claim depends on non-integer numerics).
* Python code that can raise an exception is modelled in `Except String`,
  the error string naming the Python exception class raised
  (`"AttributeError"`, `"TypeError"`, `"InterfaceError"`, `"ValueError"`,
  `"OperationalError"`).
* Character classes (`\w`, `str.strip`, `int()`) are modelled on the ASCII
  fragment, which covers every input appearing in the claims.
* The sqlite FTS engine is external to the repository; the search handler is
  parameterised over a store oracle `StoreExec`.
-/

namespace ChatSearch

/-- A parsed JSON value, as returned by Python's `json.loads`.
`obj` models a Python dict (keys unique). -/
inductive Json where
  | null : Json
  | bool : Bool → Json
  | num : Int → Json
  | str : String → Json
  | arr : List Json → Json
  | obj : List (String × Json) → Json

/-- `d.get(key)` on a Python dict: the stored value when the key is present. -/
def jget : List (String × Json) → String → Option Json
  | [], _ => none
  | (k, v) :: rest, key => if k = key then some v else jget rest key

/-- `d.get(key, default)` on a Python dict. -/
def jgetD (kvs : List (String × Json)) (key : String) (dflt : Json) : Json :=
  (jget kvs key).getD dflt

/-- Python `str` whitespace characters (as stripped by `str.strip()` /
split by `str.split()` and matched by `\s`, on the ASCII range). -/
def pySpace (c : Char) : Bool :=
  c = ' ' || c = '\t' || c = '\n' || c = '\r' || c = '\x0b' || c = '\x0c'

/-- Python `s.strip()`: remove leading and trailing whitespace. -/
def pyStrip (s : String) : String :=
  String.mk (((s.toList.dropWhile pySpace).reverse.dropWhile pySpace).reverse)

/-- `not s.strip()` as a predicate: `s` is empty or all-whitespace. -/
def isBlank (s : String) : Bool := pyStrip s == ""

/-- Helper for `pySplitSep`: accumulate the current (reversed) segment. -/
def splitSepAux (sep : Char) : List Char → List Char → List String
  | [], acc => [String.mk acc.reverse]
  | c :: cs, acc =>
    if c = sep then String.mk acc.reverse :: splitSepAux sep cs []
    else splitSepAux sep cs (c :: acc)

/-- Python `s.split(sep)` with a one-character separator: keeps empty
segments, always returns at least one segment. -/
def pySplitSep (sep : Char) (s : String) : List String :=
  splitSepAux sep s.toList []

/-- `extract_project_name` from `src/app.py`: split the flattened folder name
on `-`; if a segment equals `code`, join everything after its first
occurrence with `-` (returning the whole name when `code` is last);
otherwise return the last segment. -/
def extract_project_name (folder_name : String) : String :=
  let parts := pySplitSep '-' folder_name
  if "code" ∈ parts then
    let idx := parts.indexOf "code"
    if idx + 1 < parts.length then
      String.intercalate "-" (parts.drop (idx + 1))
    else folder_name
  else parts.getLastD folder_name

/-- Modelled from the spec: the project label is everything after the path
segment literally named `code`, or, if no such segment exists, the final
segment. -/
def projectLabelSpec (folder_name : String) : String :=
  let parts := pySplitSep '-' folder_name
  if "code" ∈ parts then
    String.intercalate "-" (parts.drop (parts.indexOf "code" + 1))
  else parts.getLastD folder_name


/-! ## Content extraction (`extract_text_content`, app.py lines 71-88) -/

/-- Python `value == "<literal>"` on a `dict.get` result: true exactly when
the value is that string. -/
def tyIs (o : Option Json) (t : String) : Bool :=
  match o with
  | some (.str s) => s = t
  | _ => false

/-- One iteration of the block loop in `extract_text_content`: the pieces a
block appends to `texts` (zero or one), or the Python exception raised.
A `document` block whose `source` value is not a dict raises
`AttributeError` (`source.get` on a non-dict). -/
def blockPieces : Json → Except String (List Json)
  | .obj kvs =>
    if tyIs (jget kvs "type") "text" then .ok [jgetD kvs "text" (.str "")]
    else if tyIs (jget kvs "type") "document" then
      match jgetD kvs "source" (.obj []) with
      | .obj skvs =>
        if tyIs (jget skvs "type") "text" then .ok [jgetD skvs "data" (.str "")]
        else .ok []
      | _ => .error "AttributeError"
    else .ok []
  | .str s => .ok [.str s]
  | _ => .ok []

/-- The full block loop: the `texts` list accumulated over all blocks. -/
def collectBlocks : List Json → Except String (List Json)
  | [] => .ok []
  | b :: rest =>
    match blockPieces b with
    | .error e => .error e
    | .ok ps =>
      match collectBlocks rest with
      | .error e => .error e
      | .ok more => .ok (ps ++ more)

/-- `"\n".join(texts)` requires every element to be a `str`; a non-string
element raises `TypeError`. -/
def strVals : List Json → Except String (List String)
  | [] => .ok []
  | .str s :: rest =>
    match strVals rest with
    | .ok ss => .ok (s :: ss)
    | .error e => .error e
  | _ :: _ => .error "TypeError"

/-- Python `"\n".join(texts)`. -/
def joinPy (xs : List Json) : Except String String :=
  match strVals xs with
  | .ok ss => .ok (String.intercalate "\n" ss)
  | .error e => .error e

/-- `extract_text_content` from `src/app.py`: a string is returned as-is; a
list is folded through the block loop and newline-joined; any other value
yields `""`. The `Except` layer records the Python exceptions the function
can raise (`AttributeError` from a non-dict `source`, `TypeError` from
joining a non-string piece). -/
def extract_text_content : Json → Except String String
  | .str s => .ok s
  | .arr blocks =>
    match collectBlocks blocks with
    | .ok texts => joinPy texts
    | .error e => .error e
  | _ => .ok ""

/-- Modelled from the spec: the string a well-shaped block contributes, if
any (string elements; `text` blocks' `text` field; `document` blocks'
`source.data` when `source.type` is `text`; everything else ignored). -/
def pieceOf : Json → Option String
  | .str s => some s
  | .obj kvs =>
    if tyIs (jget kvs "type") "text" then
      match jgetD kvs "text" (.str "") with
      | .str s => some s
      | _ => none
    else if tyIs (jget kvs "type") "document" then
      match jgetD kvs "source" (.obj []) with
      | .obj skvs =>
        if tyIs (jget skvs "type") "text" then
          match jgetD skvs "data" (.str "") with
          | .str s => some s
          | _ => none
        else none
      | _ => none
    else none
  | _ => none

/-- A block is well-shaped when the value it would contribute is a string
and, for `document` blocks, the `source` value is a dict. -/
def blockWF : Json → Bool
  | .obj kvs =>
    if tyIs (jget kvs "type") "text" then
      match jgetD kvs "text" (.str "") with
      | .str _ => true
      | _ => false
    else if tyIs (jget kvs "type") "document" then
      match jgetD kvs "source" (.obj []) with
      | .obj skvs =>
        if tyIs (jget skvs "type") "text" then
          match jgetD skvs "data" (.str "") with
          | .str _ => true
          | _ => false
        else true
      | _ => false
    else true
  | _ => true

/-- A content value is well-shaped when every block of a list content is. -/
def contentWF : Json → Bool
  | .arr blocks => blocks.all blockWF
  | _ => true

/-- Modelled from the spec: the total content-extraction function the spec
describes (string as-is; list joined with newlines in order; other shapes
empty). -/
def specExtract : Json → String
  | .str s => s
  | .arr blocks => String.intercalate "\n" (blocks.filterMap pieceOf)
  | _ => ""


/-! ## Per-record document extraction (`index_jsonl_file` loop body,
app.py lines 99-123) -/

/-- One row of the `messages` table, as bound by the `INSERT` at
app.py line 117. `session_id`, `timestamp` and `role` keep the raw JSON
value the record supplied (sqlite receives the corresponding Python value);
`content` is the extracted text. -/
structure Doc where
  session_id : Json
  timestamp : Json
  role : Json
  content : String
  project : String
  file_path : String

/-- Whether the Python value behind a `Json` can be bound as a sqlite
parameter (`None`, `bool`, numbers and `str` can; `list` and `dict` raise
`sqlite3.InterfaceError`). -/
def bindable : Json → Bool
  | .null => true
  | .bool _ => true
  | .num _ => true
  | .str _ => true
  | .arr _ => false
  | .obj _ => false

/-- The `msg_type in ("user", "assistant")` guard at app.py line 104: the
accepted type string, if any. -/
def acceptedType : Option Json → Option String
  | some (.str s) => if s = "user" ∨ s = "assistant" then some s else none
  | _ => none

/-- The body of the record loop after the type guard: resolve `role`,
extract content, drop blank content, default `sessionId`/`timestamp`, and
bind the row. `t` is the accepted type string. A non-dict `message` value
raises `AttributeError` (`message.get` at line 108); an unbindable field
raises `InterfaceError` at the `INSERT`. -/
def processTyped (stem project path t : String)
    (kvs : List (String × Json)) : Except String (Option Doc) :=
  match jgetD kvs "message" (.obj []) with
  | .obj mkvs =>
    let role := jgetD mkvs "role" (.str t)
    match extract_text_content (jgetD mkvs "content" (.str "")) with
    | .error e => .error e
    | .ok content =>
      if isBlank content then .ok none
      else
        let sid := jgetD kvs "sessionId" (.str stem)
        let ts := jgetD kvs "timestamp" (.str "")
        if bindable sid && bindable ts && bindable role then
          .ok (some ⟨sid, ts, role, content, project, path⟩)
        else .error "InterfaceError"
  | _ => .error "AttributeError"

/-- Process one parsed record: `some doc` when a row is inserted, `none`
when the record is skipped, `.error` when a Python exception escapes the
loop body (only `json.JSONDecodeError` is caught there). A non-dict record
raises `AttributeError` at `obj.get`. -/
def processRecord (stem project path : String) (obj : Json) :
    Except String (Option Doc) :=
  match obj with
  | .obj kvs =>
    match acceptedType (jget kvs "type") with
    | some t => processTyped stem project path t kvs
    | none => .ok none
  | _ => .error "AttributeError"

/-! Claim-side accessors for stating C1/C6. -/

/-- The record's top-level `type` value, when the record is a dict. -/
def recType : Json → Option Json
  | .obj kvs => jget kvs "type"
  | _ => none

/-- The record's `type` is the string `user` or `assistant`. -/
def goodType (obj : Json) : Bool := (acceptedType (recType obj)).isSome

/-- The key/value pairs of `obj.get("message", {})`, when that value is a
dict (so that `message.get` does not raise). -/
def msgObj : Json → Option (List (String × Json))
  | .obj kvs =>
    match jgetD kvs "message" (.obj []) with
    | .obj mkvs => some mkvs
    | _ => none
  | _ => none

/-- The successfully extracted content of the record, if any. -/
def extractedContent (obj : Json) : Option String :=
  match msgObj obj with
  | some mkvs =>
    match extract_text_content (jgetD mkvs "content" (.str "")) with
    | .ok s => some s
    | .error _ => none
  | none => none

/-- The record's nested `message.role` value, when present. -/
def msgRoleField (obj : Json) : Option Json :=
  match msgObj obj with
  | some mkvs => jget mkvs "role"
  | none => none

/-- A top-level field of the record, when the record is a dict and the key
is present. -/
def recKey (obj : Json) (key : String) : Option Json :=
  match obj with
  | .obj kvs => jget kvs key
  | _ => none

/-- The three raw values the `INSERT` binds besides strings, after
defaulting, when they are determined (dict record, accepted type, dict
message): `sessionId`, `timestamp` and the resolved `role`. -/
def boundFields (stem : String) (obj : Json) : Option (Json × Json × Json) :=
  match obj with
  | .obj kvs =>
    match acceptedType (jget kvs "type"), msgObj obj with
    | some t, some mkvs =>
      some (jgetD kvs "sessionId" (.str stem),
            jgetD kvs "timestamp" (.str ""),
            jgetD mkvs "role" (.str t))
    | _, _ => none
  | _ => none

/-- All three bound fields are of sqlite-bindable type. -/
def bindableFields (stem : String) (obj : Json) : Bool :=
  match boundFields stem obj with
  | some (sid, ts, role) => bindable sid && bindable ts && bindable role
  | none => false


/-! ## File-level scan (`index_jsonl_file`, app.py lines 91-127) -/

/-- One source file as the scan observes it. `openErr` models `open`
raising; `lines` are the lines the iterator yields, each already carrying
its `json.loads` outcome (`.error` = `JSONDecodeError`); `readErr` models
the iterator raising after yielding `lines`. -/
structure FileInput where
  stem : String
  parentName : String
  path : String
  openErr : Option String
  lines : List (Except String Json)
  readErr : Option String

/-- What one file contributed: the rows inserted and the error printed by
the `except Exception` handler, if any. -/
structure FileResult where
  docs : List Doc
  log : Option String

/-- The line loop: a `JSONDecodeError` line is skipped (`continue`); any
other exception from the loop body stops the loop, keeping the rows already
inserted. Returns the inserted rows and the aborting error, if any. -/
def processLines (stem project path : String) :
    List (Except String Json) → List Doc × Option String
  | [] => ([], none)
  | line :: rest =>
    match line with
    | .error _ => processLines stem project path rest
    | .ok obj =>
      match processRecord stem project path obj with
      | .error e => ([], some e)
      | .ok none => processLines stem project path rest
      | .ok (some d) =>
        (d :: (processLines stem project path rest).1,
         (processLines stem project path rest).2)

/-- `index_jsonl_file`: on an open error the file contributes nothing; a
record exception aborts the remaining lines; a read error after the yielded
lines is also caught. In every error case the message is printed (`log`)
and the already-inserted rows are kept. -/
def index_jsonl_file (fi : FileInput) : FileResult :=
  match fi.openErr with
  | some e => ⟨[], some e⟩
  | none =>
    let pr := processLines fi.stem (extract_project_name fi.parentName) fi.path fi.lines
    ⟨pr.1, pr.2 <|> fi.readErr⟩

/-! ## Indexing job (`run_indexer`, app.py lines 130-173) -/

/-- The process-wide `indexing_status` dict. -/
structure JobState where
  running : Bool
  progress : Nat
  total : Nat
  error : Option String

/-- The persistent store: the `messages` FTS table and the `metadata`
key/value table. -/
structure Store where
  messages : List Doc
  metadata : List (String × String)

/-- The environment one indexer run observes: the outcome of the
`glob` over the projects directory, injected failures of `init_db` and of
the final metadata writes, and the wall clock for `last_indexed`. -/
structure World where
  glob : Except String (List FileInput)
  initErr : Option String
  metaErr : Option String
  now : String

/-- The file loop of `run_indexer`: index each file, bumping `progress`
after each one; accumulate inserted rows and printed errors. -/
def scanFiles : List FileInput → JobState → JobState × List Doc × List String
  | [], s => (s, [], [])
  | fi :: rest, s =>
    ((scanFiles rest { s with progress := s.progress + 1 }).1,
     (index_jsonl_file fi).docs ++
       (scanFiles rest { s with progress := s.progress + 1 }).2.1,
     (index_jsonl_file fi).log.toList ++
       (scanFiles rest { s with progress := s.progress + 1 }).2.2)

/-- Result of one `run_indexer` call: the final `indexing_status` and the
store it left behind. -/
structure RunResult where
  state : JobState
  store : Store

/-- `run_indexer`: reset the status, glob the files, reset the store,
process every file, then write `last_indexed` and `message_count`. Any
exception is caught by the trailing `except`, which records the message in
`error` and clears `running`. `store0` is the store as it existed before
the run (untouched when the run fails before `init_db`). -/
def run_indexer (w : World) (store0 : Store) : RunResult :=
  let s0 : JobState := ⟨true, 0, 0, none⟩
  match w.glob with
  | .error e => ⟨{ s0 with running := false, error := some e }, store0⟩
  | .ok files =>
    let s1 := { s0 with total := files.length }
    match w.initErr with
    | some e => ⟨{ s1 with running := false, error := some e }, store0⟩
    | none =>
      let res := scanFiles files s1
      match w.metaErr with
      | some e => ⟨{ res.1 with running := false, error := some e }, ⟨res.2.1, []⟩⟩
      | none =>
        ⟨{ res.1 with running := false },
         ⟨res.2.1,
          [("last_indexed", w.now), ("message_count", toString res.2.1.length)]⟩⟩

/-- The first exception a run of `run_indexer` raises, if any. -/
def runErr (w : World) : Option String :=
  match w.glob with
  | .error e => some e
  | .ok _ => w.initErr <|> w.metaErr

/-- `POST /reindex` (app.py lines 281-291): response string, resulting
job state as the handler leaves it, and whether a new job thread was
started. -/
def reindex (s : JobState) : String × JobState × Bool :=
  if s.running then ("already_running", s, false)
  else ("started", s, true)

/-! ## Query engine (`search` handler, app.py lines 182-221) -/

/-- Regex `\w` (word character), on the ASCII range. -/
def isWordChar (c : Char) : Bool := c.isAlphanum || c = '_'

/-- One character of `re.sub(r'[^\w\s]', ' ', query)`: characters that are
neither word characters nor whitespace become a space. -/
def sanitizeChar (c : Char) : Char :=
  if isWordChar c || pySpace c then c else ' '

/-- `re.sub(r'[^\w\s]', ' ', query)`. -/
def sanitizeQuery (q : String) : String := String.mk (q.toList.map sanitizeChar)

/-- Helper for `pySplitWS`: split on whitespace runs, accumulating the
current (reversed) token. -/
def wsSplitAux : List Char → List Char → List String
  | [], acc => if acc.isEmpty then [] else [String.mk acc.reverse]
  | c :: cs, acc =>
    if pySpace c then
      if acc.isEmpty then wsSplitAux cs []
      else String.mk acc.reverse :: wsSplitAux cs []
    else wsSplitAux cs (c :: acc)

/-- Python `s.split()` (no separator): split on whitespace runs, dropping
empty tokens. -/
def pySplitWS (s : String) : List String := wsSplitAux s.toList []

/-- app.py line 196: the FTS query string — every token of the sanitized
query suffixed with `*`, joined by spaces. -/
def ftsQuery (q : String) : String :=
  String.intercalate " " ((pySplitWS (sanitizeQuery q)).map (fun w => w ++ "*"))

/-- Python `int(s)` on a decimal string: strip whitespace, optional sign,
at least one digit (modelled on the ASCII fragment, without underscore
separators). `ValueError` otherwise. -/
def pyInt (s : String) : Except String Int :=
  let digitsVal : List Char → Except String Int := fun cs =>
    if cs ≠ [] && cs.all Char.isDigit then
      .ok (cs.foldl (fun a c => a * 10 + (c.toNat - '0'.toNat : Int)) 0)
    else .error "ValueError"
  match (pyStrip s).toList with
  | '+' :: rest => digitsVal rest
  | '-' :: rest => (digitsVal rest).map Int.neg
  | cs => digitsVal cs

/-- `int(request.args.get("limit", 50))`: the default applies only when the
parameter is absent. -/
def parseLimit : Option String → Except String Int
  | none => .ok 50
  | some s => pyInt s

/-- One row of the search `SELECT` (content replaced by its snippet). -/
structure SearchRow where
  session_id : Json
  timestamp : Json
  role : Json
  snippet : String
  project : String
  file_path : String

/-- The FTS store as the search handler sees it: run a MATCH query with a
LIMIT, returning ranked rows or a `sqlite3.OperationalError` message. -/
def StoreExec : Type := String → Int → Except String (List SearchRow)

/-- The JSON body the `/search` handler returns. `count` and `error` are
optional keys: the blank-query early return carries neither, the success
path carries `count`, the `OperationalError` path carries `error`. -/
structure SearchResponse where
  results : List SearchRow
  query : String
  count : Option Nat
  error : Option String

/-- The `/search` handler: strip the query, parse and clamp the limit
(`ValueError` from a malformed limit is not caught), return early on a
blank query, otherwise run the FTS query, catching `OperationalError`
inline. -/
def search (store : StoreExec) (qRaw : String) (limitRaw : Option String) :
    Except String SearchResponse :=
  let query := pyStrip qRaw
  match parseLimit limitRaw with
  | .error e => .error e
  | .ok lim0 =>
    let lim := min lim0 200
    if query = "" then .ok ⟨[], query, none, none⟩
    else
      match store (ftsQuery query) lim with
      | .ok rows => .ok ⟨rows, query, some rows.length, none⟩
      | .error e => .ok ⟨[], query, none, some e⟩

/-! ## Conversation and status handlers (app.py lines 224-278) -/

/-- Sqlite `ORDER BY` comparison on stored values: NULL sorts before
numerics, numerics before text; numerics by value (booleans are stored as
integers), text by string order. -/
def sqliteRank : Json → Nat
  | .null => 0
  | .bool _ => 1
  | .num _ => 1
  | .str _ => 2
  | _ => 3

/-- Numeric value of a stored numeric. -/
def jnum : Json → Int
  | .bool b => if b then 1 else 0
  | .num n => n
  | _ => 0

/-- `a ≤ b` in sqlite `ORDER BY` order. -/
def sqliteLE (a b : Json) : Bool :=
  if sqliteRank a = sqliteRank b then
    match a, b with
    | .str s, .str t => s ≤ t
    | _, _ => jnum a ≤ jnum b
  else sqliteRank a < sqliteRank b

/-- Insertion into a list sorted by timestamp. -/
def insertByTs (d : Doc) : List Doc → List Doc
  | [] => [d]
  | e :: rest =>
    if sqliteLE d.timestamp e.timestamp then d :: e :: rest
    else e :: insertByTs d rest

/-- `ORDER BY timestamp` over the selected rows. -/
def sortByTs : List Doc → List Doc
  | [] => []
  | d :: rest => insertByTs d (sortByTs rest)

/-- The JSON body the `/conversation/<session_id>` handler returns. -/
structure ConvResponse where
  session_id : String
  messages : List Doc

/-- Sqlite `column = ?` with a TEXT parameter: only a TEXT value with the
same characters compares equal (values of other storage classes never
equal a TEXT value). -/
def isStrEq : Json → String → Bool
  | .str s, t => s = t
  | _, _ => false

/-- The `/conversation` handler: `db = none` models the `messages` table
not existing (no index was ever built); the resulting
`sqlite3.OperationalError` is not caught. Otherwise all rows whose
`session_id` equals the requested TEXT value, ordered by timestamp. -/
def conversation (db : Option Store) (sid : String) : Except String ConvResponse :=
  match db with
  | none => .error "OperationalError"
  | some st =>
    .ok ⟨sid, sortByTs (st.messages.filter (fun d => isStrEq d.session_id sid))⟩

/-- The JSON body the `/status` handler returns. -/
structure StatusResponse where
  indexed : Bool
  last_indexed : Option String
  message_count : Int
  indexing : JobState

/-- Metadata value lookup. -/
def metaGet (st : Store) (key : String) : Option String :=
  match st.metadata.find? (fun kv => kv.1 = key) with
  | some kv => some kv.2
  | none => none

/-- The `/status` handler: `dbExists` is `DB_PATH.exists()`; `db = none`
models the metadata table missing from an existing file (the resulting
`OperationalError` is caught). `int(message_count)` on a corrupted
metadata value raises an uncaught `ValueError`. -/
def statusHandler (dbExists : Bool) (db : Option Store) (js : JobState) :
    Except String StatusResponse :=
  if dbExists then
    match db with
    | none => .ok ⟨false, none, 0, js⟩
    | some st =>
      match metaGet st "message_count" with
      | none => .ok ⟨true, metaGet st "last_indexed", 0, js⟩
      | some v =>
        match pyInt v with
        | .ok n => .ok ⟨true, metaGet st "last_indexed", n, js⟩
        | .error e => .error e
  else .ok ⟨false, none, 0, js⟩

/-! ## Concrete fixtures used by counterexamples and witnesses -/

/-- A store oracle that returns no rows. -/
def demoStore : StoreExec := fun _ _ => .ok []

/-- A store oracle behaving like FTS5 on the empty query string. -/
def fts5Store : StoreExec := fun fq _ =>
  if fq = "" then .error "fts5: syntax error in query" else .ok []

/-- A well-formed user record with content `"hello"` and explicit role. -/
def demoRecord : Json :=
  .obj [("type", .str "assistant"),
        ("message", .obj [("role", .str "assistant"), ("content", .str "hello")])]

/-- A user record whose `timestamp` is a JSON array: sqlite refuses to bind
it. -/
def arrayTsRecord : Json :=
  .obj [("type", .str "user"), ("timestamp", .arr []),
        ("message", .obj [("content", .str "hi")])]

/-- A content list with a `text` block whose `text` field is a number. -/
def badContent : Json := .arr [.obj [("type", .str "text"), ("text", .num 5)]]

/-- A user record with an explicit `"sessionId": null`. -/
def recNullSid : Json :=
  .obj [("type", .str "user"), ("sessionId", .null),
        ("message", .obj [("content", .str "hi")])]

/-- A minimal user record without `sessionId`. -/
def recF : Json :=
  .obj [("type", .str "user"), ("message", .obj [("content", .str "hi")])]

/-- The row `recF` inserts when scanned from stem `f`, project `p`,
path `/f`. -/
def docF : Doc := ⟨.str "f", .str "", .str "user", "hi", "p", "/f"⟩

/-- A file containing only `recNullSid`. -/
def nullSidFile : FileInput :=
  ⟨"file1", "-Users-alice-code-proj", "/logs/file1.jsonl", none,
   [.ok recNullSid], none⟩

/-- A file that yields one good record and then fails with an I/O error. -/
def midReadErrFile : FileInput :=
  ⟨"file2", "-Users-alice-code-proj", "/logs/file2.jsonl", none,
   [.ok (.obj [("type", .str "user"),
      ("message", .obj [("content", .str "hello")])])],
   some "IOError"⟩

/-- A file whose `open` call fails. -/
def openErrFile : FileInput :=
  ⟨"f3", "-p", "/f3", some "PermissionError", [], none⟩

/-! ## C5: project-name extraction -/

/-- C5 counterexample: when `code` is the final segment, the code returns
the whole folder name, not "everything after the `code` segment" (which
would be the empty string). -/
theorem C5_counterexample :
    extract_project_name "-Users-alice-code" = "-Users-alice-code" ∧
    projectLabelSpec "-Users-alice-code" = "" ∧
    "-Users-alice-code" ≠ "" := by
  refine ⟨by decide, by decide, by decide⟩

/-- C5 (amended): the label is everything after the first `code` segment
when at least one segment follows it; the whole folder name when `code` is
the final segment; the final segment when no `code` segment exists. The
two spec examples evaluate as claimed. -/
theorem C5_amended :
    (∀ name, "code" ∈ pySplitSep '-' name →
        (pySplitSep '-' name).indexOf "code" + 1 < (pySplitSep '-' name).length →
        extract_project_name name = projectLabelSpec name) ∧
    (∀ name, "code" ∉ pySplitSep '-' name →
        extract_project_name name = projectLabelSpec name) ∧
    (∀ name, "code" ∈ pySplitSep '-' name →
        ¬ (pySplitSep '-' name).indexOf "code" + 1 < (pySplitSep '-' name).length →
        extract_project_name name = name) ∧
    extract_project_name "-Users-alice-code-myproj" = "myproj" ∧
    extract_project_name "-Users-alice-other" = "other" := by
  refine ⟨?_, ?_, ?_, by decide, by decide⟩
  · intro name hmem hlt
    simp [extract_project_name, projectLabelSpec, hmem, hlt]
  · intro name hmem
    simp [extract_project_name, projectLabelSpec, hmem]
  · intro name hmem hlt
    simp [extract_project_name, hmem, hlt]

/-- C5 witness: the amended equation evaluated on the spec's example. -/
theorem C5_witness :
    extract_project_name "-Users-alice-code-myproj" =
      projectLabelSpec "-Users-alice-code-myproj" :=
  C5_amended.1 "-Users-alice-code-myproj" (by decide) (by decide)

/-! ## C9: reindex while running -/

/-- C9: when the job state says `running`, `POST /reindex` answers
`already_running`, leaves the job state exactly as it was, and starts no
new job thread. -/
theorem C9_reindex_running_noop (s : JobState) (h : s.running = true) :
    reindex s = ("already_running", s, false) := by
  simp [reindex, h]

/-- C9 witness: the no-op on a concrete in-flight state. -/
theorem C9_witness :
    reindex ⟨true, 3, 7, none⟩ = ("already_running", ⟨true, 3, 7, none⟩, false) :=
  C9_reindex_running_noop ⟨true, 3, 7, none⟩ rfl

/-! ## C8: the indexing job catches every exception -/

/-- The scan loop only advances `progress`: `running`, `total` and `error`
pass through, and `progress` grows by the number of files. -/
theorem scanFiles_state (files : List FileInput) (s : JobState) :
    (scanFiles files s).1.running = s.running ∧
    (scanFiles files s).1.total = s.total ∧
    (scanFiles files s).1.error = s.error ∧
    (scanFiles files s).1.progress = s.progress + files.length := by
  induction files generalizing s with
  | nil => simp [scanFiles]
  | cons fi rest ih =>
    have h := ih { s with progress := s.progress + 1 }
    simp only [scanFiles] at h ⊢
    exact ⟨h.1, h.2.1, h.2.2.1, by rw [h.2.2.2]; simp; omega⟩

/-- C8: whatever the run encounters, `run_indexer` ends with
`running = false`, and the `error` field holds exactly the message of the
exception the run raised, if any (`runErr`); the function is total, so no
exception propagates to the host process. -/
theorem C8_run_indexer_catches (w : World) (store0 : Store) :
    (run_indexer w store0).state.running = false ∧
    (run_indexer w store0).state.error = runErr w := by
  unfold run_indexer runErr
  cases hg : w.glob with
  | error e => simp
  | ok files =>
    cases hi : w.initErr with
    | some e => simp
    | none =>
      cases hm : w.metaErr with
      | some e => simp
      | none =>
        have h := scanFiles_state files
          { running := true, progress := 0, total := files.length, error := none }
        exact ⟨rfl, h.2.2.1⟩

/-! ## C3: blank-query early return -/

/-- C3 counterexample: the blank-query early return carries no `count`
key at all (`count = none`), whereas the claim promises `count: 0`. -/
theorem C3_counterexample :
    search demoStore "   " none = .ok ⟨[], "", none, none⟩ ∧
    (⟨[], "", none, none⟩ : SearchResponse).count ≠ some 0 := by
  exact ⟨rfl, by simp⟩

/-- C3 (amended): for a blank query, provided the `limit` parameter is
absent or parses as an integer (a malformed one raises `ValueError` before
the blank-query check), the handler returns `{results: [], query: ""}` —
with no `count` key — and the response does not depend on the store, so no
query is executed against it. -/
theorem C3_amended (store store2 : StoreExec) (q : String) (limitRaw : Option String)
    (n : Int) (hq : isBlank q = true) (hl : parseLimit limitRaw = .ok n) :
    search store q limitRaw = .ok ⟨[], "", none, none⟩ ∧
    search store q limitRaw = search store2 q limitRaw := by
  have hq' : pyStrip q = "" := by
    have := hq
    unfold isBlank at this
    exact eq_of_beq this
  constructor <;> simp [search, hl, hq']

/-- C3 witness: the amended statement on the spec's `"   "` example. -/
theorem C3_witness :
    search demoStore "   " none = .ok ⟨[], "", none, none⟩ :=
  (C3_amended demoStore demoStore "   " none 50 (by decide) rfl).1

/-! ## C4: handlers always return structured responses -/

/-- C4 counterexample: a non-integer `limit` string raises an uncaught
`ValueError` in the search handler, and `getConversation` raises an
uncaught `OperationalError` when the `messages` table does not exist. -/
theorem C4_counterexample :
    search demoStore "hello" (some "abc") = .error "ValueError" ∧
    conversation none "sid" = .error "OperationalError" := by
  exact ⟨rfl, rfl⟩

/-- C4 (amended): the handlers return structured responses on the
conditions the code actually guards: search for every query string once
the limit is absent or an integer string (store errors are reported
inline); conversation whenever the `messages` table exists; status when
the database file is missing, when its tables are missing, and when the
stored `message_count`, if present, parses as an integer. -/
theorem C4_amended :
    (∀ (store : StoreExec) (q : String) (limitRaw : Option String) (n : Int),
        parseLimit limitRaw = .ok n → (search store q limitRaw).isOk = true) ∧
    (∀ (st : Store) (sid : String), (conversation (some st) sid).isOk = true) ∧
    (∀ (db : Option Store) (js : JobState), (statusHandler false db js).isOk = true) ∧
    (∀ (js : JobState), (statusHandler true none js).isOk = true) ∧
    (∀ (st : Store) (js : JobState) (v : String),
        metaGet st "message_count" = some v → (pyInt v).isOk = true →
        (statusHandler true (some st) js).isOk = true) ∧
    (∀ (st : Store) (js : JobState),
        metaGet st "message_count" = none →
        (statusHandler true (some st) js).isOk = true) := by
  refine ⟨?_, ?_, ?_, ?_, ?_, ?_⟩
  · intro store q limitRaw n h
    unfold search
    rw [h]
    dsimp only
    split
    · rfl
    · split <;> rfl
  · intro st sid
    rfl
  · intro db js
    rfl
  · intro js
    rfl
  · intro st js v hv hok
    unfold statusHandler
    rw [if_pos rfl]
    dsimp only
    rw [hv]
    dsimp only
    split
    · rfl
    · next e hp => rw [hp] at hok; cases hok
  · intro st js hv
    unfold statusHandler
    rw [if_pos rfl]
    dsimp only
    rw [hv]
    rfl

/-- C4 witness: the amended guarantees evaluated on concrete requests and
stores. -/
theorem C4_witness :
    (search demoStore "hello" none).isOk = true ∧
    (conversation (some ⟨[], []⟩) "s").isOk = true ∧
    (statusHandler false none ⟨false, 0, 0, none⟩).isOk = true ∧
    (statusHandler true none ⟨false, 0, 0, none⟩).isOk = true ∧
    (statusHandler true (some ⟨[], [("message_count", "3")]⟩)
        ⟨false, 0, 0, none⟩).isOk = true ∧
    (statusHandler true (some ⟨[], []⟩) ⟨false, 0, 0, none⟩).isOk = true :=
  ⟨C4_amended.1 demoStore "hello" none 50 rfl,
   C4_amended.2.1 ⟨[], []⟩ "s",
   C4_amended.2.2.1 none ⟨false, 0, 0, none⟩,
   C4_amended.2.2.2.1 ⟨false, 0, 0, none⟩,
   C4_amended.2.2.2.2.1 ⟨[], [("message_count", "3")]⟩ ⟨false, 0, 0, none⟩ "3" rfl rfl,
   C4_amended.2.2.2.2.2 ⟨[], []⟩ ⟨false, 0, 0, none⟩ rfl⟩

/-! ## C2: content extraction -/

/-- On a well-shaped block, the loop contributes exactly the spec's piece,
wrapped as a JSON string. -/
theorem blockPieces_wf (b : Json) (h : blockWF b = true) :
    blockPieces b = .ok (((pieceOf b).map Json.str).toList) := by
  cases b with
  | null => rfl
  | bool x => rfl
  | num x => rfl
  | str s => rfl
  | arr xs => rfl
  | obj kvs =>
    by_cases h1 : tyIs (jget kvs "type") "text"
    · simp only [blockPieces, pieceOf, blockWF, h1, if_true] at h ⊢
      cases hx : jgetD kvs "text" (.str "") <;> rw [hx] at h <;> simp_all
    · by_cases h2 : tyIs (jget kvs "type") "document"
      · simp only [blockPieces, pieceOf, blockWF, h1, h2, if_true, if_false] at h ⊢
        cases hs : jgetD kvs "source" (.obj []) <;> rw [hs] at h <;> try simp_all
        next skvs =>
          by_cases h3 : tyIs (jget skvs "type") "text"
          · simp only [h3, if_true] at h ⊢
            cases hd : jgetD skvs "data" (.str "") <;> rw [hd] at h <;> simp_all
          · simp only [h3, if_false] at h ⊢
            rfl
      · simp only [blockPieces, pieceOf, blockWF, h1, h2, if_false] at h ⊢
        rfl

/-- On a list of well-shaped blocks, the loop collects exactly the spec's
pieces, in order. -/
theorem collectBlocks_wf (blocks : List Json) (h : blocks.all blockWF = true) :
    collectBlocks blocks = .ok ((blocks.filterMap pieceOf).map Json.str) := by
  induction blocks with
  | nil => rfl
  | cons b rest ih =>
    rw [List.all_cons, Bool.and_eq_true] at h
    rw [collectBlocks, blockPieces_wf b h.1, ih h.2]
    cases hp : pieceOf b <;> simp [List.filterMap_cons, hp]

/-- `"\n".join` succeeds on a list of strings. -/
theorem strVals_map (ss : List String) : strVals (ss.map Json.str) = .ok ss := by
  induction ss with
  | nil => rfl
  | cons s rest ih => simp [strVals, ih]

/-- `"\n".join` on a list of strings is newline-intercalation. -/
theorem joinPy_map (ss : List String) :
    joinPy (ss.map Json.str) = .ok (String.intercalate "\n" ss) := by
  rw [joinPy, strVals_map]

/-- C2 counterexample: on the list `[{"type":"text","text":5}]` the code
raises `TypeError` (from `"\n".join`) instead of returning a string, so
extraction is not the total function the claim describes. -/
theorem C2_counterexample :
    extract_text_content badContent = .error "TypeError" ∧
    contentWF badContent = false := ⟨rfl, rfl⟩

/-- C2 (amended): extraction behaves exactly as the spec describes — a
plain string unchanged, a list newline-joining string elements, `text`
blocks' `text`, and text-`document` blocks' `source.data` in order, any
other shape yielding `""` — provided every contributing piece is a string
and every `document` block's `source` is a dict; on other lists the code
raises (`TypeError`/`AttributeError`) instead. Idempotence on strings and
the `"a\nb"` example hold unconditionally. -/
theorem C2_amended :
    (∀ j, contentWF j = true → extract_text_content j = .ok (specExtract j)) ∧
    (∀ s, extract_text_content (.str s) = .ok s) ∧
    extract_text_content (.arr [.obj [("type", .str "text"), ("text", .str "a")],
      .obj [("type", .str "text"), ("text", .str "b")]]) = .ok "a\nb" := by
  refine ⟨?_, fun s => rfl, rfl⟩
  intro j hj
  cases j with
  | null => rfl
  | bool x => rfl
  | num x => rfl
  | str s => rfl
  | obj kvs => rfl
  | arr blocks =>
    unfold contentWF at hj
    dsimp only at hj
    unfold extract_text_content specExtract
    dsimp only
    rw [collectBlocks_wf blocks hj]
    exact joinPy_map _

/-- C2 witness: the amended equation on a mixed well-shaped list. -/
theorem C2_witness :
    extract_text_content (.arr [.str "x",
      .obj [("type", .str "text"), ("text", .str "y")]]) =
      .ok (specExtract (.arr [.str "x",
        .obj [("type", .str "text"), ("text", .str "y")]])) :=
  C2_amended.1 _ rfl

/-! ## Characterizing per-record processing (shared by C1 and C6) -/

/-- The type guard accepts only the strings `user` and `assistant`. -/
theorem acceptedType_eq : ∀ {o : Option Json} {t : String},
    acceptedType o = some t → o = some (.str t)
  | none, _, h => by simp [acceptedType] at h
  | some .null, _, h => by simp [acceptedType] at h
  | some (.bool _), _, h => by simp [acceptedType] at h
  | some (.num _), _, h => by simp [acceptedType] at h
  | some (.arr _), _, h => by simp [acceptedType] at h
  | some (.obj _), _, h => by simp [acceptedType] at h
  | some (.str s), t, h => by
    unfold acceptedType at h
    dsimp only at h
    by_cases hs : s = "user" ∨ s = "assistant"
    · rw [if_pos hs] at h; cases h; rfl
    · rw [if_neg hs] at h; cases h

/-- Full characterization of when one record produces a row, and of the
row produced. -/
theorem processRecord_some_iff (stem project path : String) (obj : Json) (d : Doc) :
    processRecord stem project path obj = .ok (some d) ↔
    ∃ kvs mkvs t content,
      obj = .obj kvs ∧
      acceptedType (jget kvs "type") = some t ∧
      jgetD kvs "message" (.obj []) = .obj mkvs ∧
      extract_text_content (jgetD mkvs "content" (.str "")) = .ok content ∧
      isBlank content = false ∧
      (bindable (jgetD kvs "sessionId" (.str stem)) &&
       bindable (jgetD kvs "timestamp" (.str "")) &&
       bindable (jgetD mkvs "role" (.str t))) = true ∧
      d = ⟨jgetD kvs "sessionId" (.str stem), jgetD kvs "timestamp" (.str ""),
           jgetD mkvs "role" (.str t), content, project, path⟩ := by
  constructor
  · intro h
    cases obj with
    | null => cases h
    | bool x => cases h
    | num x => cases h
    | str s => cases h
    | arr xs => cases h
    | obj kvs =>
      unfold processRecord at h
      dsimp only at h
      cases ha : acceptedType (jget kvs "type") with
      | none => rw [ha] at h; cases h
      | some t =>
        rw [ha] at h
        dsimp only at h
        unfold processTyped at h
        cases hm : jgetD kvs "message" (.obj []) with
        | null => rw [hm] at h; simp at h
        | bool xb => rw [hm] at h; simp at h
        | num xn => rw [hm] at h; simp at h
        | str xs2 => rw [hm] at h; simp at h
        | arr xa => rw [hm] at h; simp at h
        | obj mkvs =>
          rw [hm] at h
          dsimp only at h
          cases he : extract_text_content (jgetD mkvs "content" (.str "")) with
          | error e => rw [he] at h; simp at h
          | ok content =>
            rw [he] at h
            dsimp only at h
            by_cases hb : isBlank content = true
            · rw [if_pos hb] at h; cases h
            · rw [if_neg hb] at h
              have hb' : isBlank content = false := by
                simp only [Bool.not_eq_true] at hb
                exact hb
              by_cases hbnd : (bindable (jgetD kvs "sessionId" (.str stem)) &&
                  bindable (jgetD kvs "timestamp" (.str "")) &&
                  bindable (jgetD mkvs "role" (.str t))) = true
              · rw [if_pos hbnd] at h
                injection h with h1
                injection h1 with h2
                exact ⟨kvs, mkvs, t, content, rfl, ha, hm, he, hb', hbnd, h2.symm⟩
              · rw [if_neg hbnd] at h; cases h
  · rintro ⟨kvs, mkvs, t, content, rfl, ha, hm, he, hb, hbnd, rfl⟩
    unfold processRecord
    try dsimp only
    rw [ha]
    try dsimp only
    unfold processTyped
    rw [hm]
    try dsimp only
    rw [he]
    try dsimp only
    rw [if_neg (by simp [hb]), if_pos hbnd]

/-! ## C6: stored-document invariants -/

/-- Every row the line loop inserts comes from some record. -/
theorem processLines_mem (stem project path : String) :
    ∀ (lines : List (Except String Json)) (d : Doc),
      d ∈ (processLines stem project path lines).1 →
      ∃ obj, processRecord stem project path obj = .ok (some d)
  | [], d, hd => by cases hd
  | line :: rest, d, hd => by
    cases line with
    | error e =>
      exact processLines_mem stem project path rest d
        (by simpa [processLines] using hd)
    | ok obj =>
      rw [processLines] at hd
      try dsimp only at hd
      cases hp : processRecord stem project path obj with
      | error e => rw [hp] at hd; try dsimp only at hd; cases hd
      | ok o =>
        cases o with
        | none =>
          rw [hp] at hd
          try dsimp only at hd
          exact processLines_mem stem project path rest d hd
        | some d' =>
          rw [hp] at hd
          try dsimp only at hd
          rcases List.mem_cons.mp hd with h | h
          · exact ⟨obj, by rw [hp, h]⟩
          · exact processLines_mem stem project path rest d h

/-- Every row a file contributes comes from some record of that file's
scan. -/
theorem index_jsonl_file_mem (fi : FileInput) (d : Doc)
    (hd : d ∈ (index_jsonl_file fi).docs) :
    ∃ obj, processRecord fi.stem (extract_project_name fi.parentName) fi.path obj =
      .ok (some d) := by
  unfold index_jsonl_file at hd
  cases ho : fi.openErr with
  | some e => rw [ho] at hd; cases hd
  | none =>
    rw [ho] at hd
    exact processLines_mem _ _ _ _ d hd

/-- C6 counterexample: a record carrying an explicit `"sessionId": null`
is stored with a null `session_id` (the `dict.get` default applies only
when the key is absent). -/
theorem C6_counterexample :
    (index_jsonl_file nullSidFile).docs =
      [⟨.null, .str "", .str "user", "hi", "proj", "/logs/file1.jsonl"⟩] := rfl

/-- C6 (amended): every row inserted by the scan has non-blank content;
`session_id` defaults to the file's base name exactly when the record has
no `sessionId` key, and otherwise carries the record's value — which is
null for an explicit `"sessionId": null`. -/
theorem C6_amended :
    (∀ files s d, d ∈ (scanFiles files s).2.1 → isBlank d.content = false) ∧
    (∀ stem project path obj d,
        processRecord stem project path obj = .ok (some d) →
        isBlank d.content = false ∧
        (recKey obj "sessionId" = none → d.session_id = .str stem) ∧
        (∀ v, recKey obj "sessionId" = some v → d.session_id = v)) := by
  have hrec : ∀ stem project path obj d,
      processRecord stem project path obj = .ok (some d) →
      isBlank d.content = false ∧
      (recKey obj "sessionId" = none → d.session_id = .str stem) ∧
      (∀ v, recKey obj "sessionId" = some v → d.session_id = v) := by
    intro stem project path obj d h
    rcases (processRecord_some_iff stem project path obj d).mp h with
      ⟨kvs, mkvs, t, content, rfl, ha, hm, he, hb, hbnd, rfl⟩
    refine ⟨hb, ?_, ?_⟩
    · intro hk
      simp only [recKey] at hk
      simp [jgetD, hk]
    · intro v hk
      simp only [recKey] at hk
      simp [jgetD, hk]
  refine ⟨?_, hrec⟩
  intro files
  induction files with
  | nil => intro s d hd; cases hd
  | cons fi rest ih =>
    intro s d hd
    rw [scanFiles] at hd
    dsimp only at hd
    rcases List.mem_append.mp hd with h | h
    · rcases index_jsonl_file_mem fi d h with ⟨obj, hobj⟩
      exact (hrec _ _ _ _ _ hobj).1
    · exact ih _ d h

/-- C6 witness: the invariants on the row a concrete record inserts. -/
theorem C6_witness :
    isBlank docF.content = false ∧ docF.session_id = .str "f" := by
  have h := C6_amended.2 "f" "p" "/f" recF docF rfl
  exact ⟨h.1, h.2.1 rfl⟩

/-! ## C7: per-file error containment -/

/-- C7 counterexample: a file whose read fails with an I/O error after one
good line still contributes that line's row — not zero documents. -/
theorem C7_counterexample :
    (index_jsonl_file midReadErrFile).docs =
      [⟨.str "file2", .str "", .str "user", "hello", "proj", "/logs/file2.jsonl"⟩] ∧
    (index_jsonl_file midReadErrFile).log = some "IOError" := ⟨rfl, rfl⟩

/-- C7 (amended): a file whose `open` fails contributes zero documents and
the error is logged; the scan visits every remaining file regardless of
per-file errors (progress always reaches the file count); a malformed line
is skipped without affecting the rest of its file. An I/O error in the
middle of reading keeps the documents of the lines already read. -/
theorem C7_amended :
    (∀ fi e, fi.openErr = some e →
        (index_jsonl_file fi).docs = [] ∧ (index_jsonl_file fi).log = some e) ∧
    (∀ files s, (scanFiles files s).1.progress = s.progress + files.length) ∧
    (∀ stem project path e rest,
        processLines stem project path (.error e :: rest) =
          processLines stem project path rest) := by
  refine ⟨?_, ?_, ?_⟩
  · intro fi e he
    unfold index_jsonl_file
    rw [he]
    exact ⟨rfl, rfl⟩
  · intro files s
    exact (scanFiles_state files s).2.2.2
  · intro stem project path e rest
    rfl

/-- C7 witness: the zero-contribution guarantee on a concrete unreadable
file. -/
theorem C7_witness :
    (index_jsonl_file openErrFile).docs = [] ∧
    (index_jsonl_file openErrFile).log = some "PermissionError" :=
  C7_amended.1 openErrFile "PermissionError" rfl

/-! ## C10: query sanitization -/

/-- A nonempty character list does not build the empty string. -/
theorem mk_ne_empty (cs : List Char) (h : cs ≠ []) : String.mk cs ≠ "" := by
  intro he
  apply h
  have hd := congrArg String.data he
  simpa using hd

/-- Every character surviving sanitization is a word character or
whitespace. -/
theorem sanitize_chars (q : String) :
    ∀ c ∈ (sanitizeQuery q).toList, (isWordChar c || pySpace c) = true := by
  intro c hc
  have hc' : c ∈ q.toList.map sanitizeChar := hc
  rcases List.mem_map.mp hc' with ⟨c0, _, rfl⟩
  unfold sanitizeChar
  by_cases h0 : (isWordChar c0 || pySpace c0) = true
  · rw [if_pos h0]; exact h0
  · rw [if_neg h0]; rfl

/-- Tokens produced by whitespace splitting are nonempty and consist of
word characters, given that the input only holds word characters and
whitespace and the accumulator only word characters. -/
theorem wsSplitAux_tokens :
    ∀ (cs acc : List Char),
      (∀ c ∈ cs, (isWordChar c || pySpace c) = true) →
      (∀ c ∈ acc, isWordChar c = true) →
      ∀ t ∈ wsSplitAux cs acc, t ≠ "" ∧ t.toList.all isWordChar = true
  | [], acc, _, hacc, t, ht => by
    rw [wsSplitAux] at ht
    cases acc with
    | nil => cases ht
    | cons a as =>
      rw [if_neg (by simp [List.isEmpty])] at ht
      rcases List.mem_singleton.mp ht with rfl
      refine ⟨mk_ne_empty _ (by simp), ?_⟩
      have hrev : ((a :: as).reverse).all isWordChar = true := by
        rw [List.all_reverse, List.all_eq_true]
        exact hacc
      simpa using hrev
  | c :: cs, acc, hcs, hacc, t, ht => by
    rw [wsSplitAux] at ht
    by_cases hc : pySpace c = true
    · rw [if_pos hc] at ht
      cases acc with
      | nil =>
        simp only [List.isEmpty_nil, if_true] at ht
        exact wsSplitAux_tokens cs [] (fun x hx => hcs x (List.mem_cons_of_mem c hx))
          (fun x hx => by cases hx) t ht
      | cons a as =>
        rw [if_neg (by simp [List.isEmpty])] at ht
        rcases List.mem_cons.mp ht with rfl | ht'
        · refine ⟨mk_ne_empty _ (by simp), ?_⟩
          have hrev : ((a :: as).reverse).all isWordChar = true := by
            rw [List.all_reverse, List.all_eq_true]
            exact hacc
          simpa using hrev
        · exact wsSplitAux_tokens cs [] (fun x hx => hcs x (List.mem_cons_of_mem c hx))
            (fun x hx => by cases hx) t ht'
    · rw [if_neg hc] at ht
      have hcw : isWordChar c = true := by
        have hor := hcs c (List.mem_cons_self c cs)
        rcases Bool.or_eq_true_iff.mp hor with h | h
        · exact h
        · exact absurd h hc
      exact wsSplitAux_tokens cs (c :: acc)
        (fun x hx => hcs x (List.mem_cons_of_mem c hx))
        (fun x hx => by
          rcases List.mem_cons.mp hx with rfl | hx'
          · exact hcw
          · exact hacc x hx') t ht

/-- C10: query sanitization replaces every character that is neither a
word character nor whitespace, splits on whitespace into tokens (so
`"hello world"` yields `["hello", "world"]` and the FTS query
`"hello* world*"`); every token is nonempty and purely word characters;
and when sanitization leaves no tokens the handler returns empty results
(the FTS engine rejecting the empty match query, reported inline). -/
theorem C10_query_sanitization :
    (pySplitWS (sanitizeQuery "hello world") = ["hello", "world"]) ∧
    (ftsQuery "hello world" = "hello* world*") ∧
    (∀ q t, t ∈ pySplitWS (sanitizeQuery q) →
        t ≠ "" ∧ t.toList.all isWordChar = true) ∧
    (∀ (store : StoreExec) (q : String) (limitRaw : Option String) (n : Int),
        (∀ l, store "" l = .error "fts5: syntax error in query") →
        parseLimit limitRaw = .ok n →
        isBlank q = false →
        pySplitWS (sanitizeQuery (pyStrip q)) = [] →
        search store q limitRaw =
          .ok ⟨[], pyStrip q, none, some "fts5: syntax error in query"⟩) := by
  refine ⟨by decide, by decide, ?_, ?_⟩
  · intro q t ht
    exact wsSplitAux_tokens (sanitizeQuery q).toList [] (sanitize_chars q)
      (fun x hx => by cases hx) t ht
  · intro store q limitRaw n hstore hl hq htok
    have hne : pyStrip q ≠ "" := by
      intro h0
      have hb : isBlank q = true := by unfold isBlank; rw [h0]; rfl
      rw [hb] at hq
      cases hq
    have hfts : ftsQuery (pyStrip q) = "" := by
      unfold ftsQuery
      rw [htok]
      rfl
    unfold search
    rw [hl]
    dsimp only
    rw [if_neg hne, hfts, hstore]

/-- C10 witness: the inline-error path on a concrete all-punctuation
query, and token purity on the spec's example. -/
theorem C10_witness :
    search fts5Store "!!!" none =
      .ok ⟨[], "!!!", none, some "fts5: syntax error in query"⟩ ∧
    ("hello" ≠ "" ∧ "hello".toList.all isWordChar = true) :=
  ⟨C10_query_sanitization.2.2.2 fts5Store "!!!" none 50
      (fun _ => rfl) rfl (by decide) (by decide),
   C10_query_sanitization.2.2.1 "hello world" "hello" (by decide)⟩

/-! ## C1: one document per accepted record -/

/-- Inverting `msgObj`: when it yields a dict, `obj.get("message", {})`
was that dict. -/
theorem msgObj_eq : ∀ {kvs mkvs : List (String × Json)},
    msgObj (.obj kvs) = some mkvs → jgetD kvs "message" (.obj []) = .obj mkvs := by
  intro kvs mkvs h
  unfold msgObj at h
  dsimp only at h
  cases hm : jgetD kvs "message" (.obj []) with
  | null => rw [hm] at h; simp at h
  | bool xb => rw [hm] at h; simp at h
  | num xn => rw [hm] at h; simp at h
  | str xs => rw [hm] at h; simp at h
  | arr xa => rw [hm] at h; simp at h
  | obj m => rw [hm] at h; simp at h; rw [h]

/-- C1 counterexample: a record of type `user` with non-blank content
whose `timestamp` is a JSON array produces zero documents — the `INSERT`
raises `sqlite3.InterfaceError` — contradicting the claimed iff. -/
theorem C1_counterexample :
    processRecord "f" "p" "/f" arrayTsRecord = .error "InterfaceError" ∧
    goodType arrayTsRecord = true ∧
    extractedContent arrayTsRecord = some "hi" ∧
    isBlank "hi" = false := ⟨rfl, rfl, rfl, by decide⟩

/-- C1 (amended): a record produces exactly one document iff its `type` is
`user` or `assistant`, its extracted content is non-blank, and its
`sessionId`, `timestamp` and resolved `role` values are of
sqlite-bindable types (not arrays or objects); when a document is
produced, its role is the nested `message.role` when that key is present,
else the top-level `type`. -/
theorem C1_amended (stem project path : String) (obj : Json) :
    ((∃ d, processRecord stem project path obj = .ok (some d)) ↔
      goodType obj = true ∧
      (∃ s, extractedContent obj = some s ∧ isBlank s = false) ∧
      bindableFields stem obj = true) ∧
    (∀ d, processRecord stem project path obj = .ok (some d) →
      ((∃ r, msgRoleField obj = some r ∧ d.role = r) ∨
       (msgRoleField obj = none ∧ some d.role = recType obj))) := by
  constructor
  · constructor
    · rintro ⟨d, hd⟩
      rcases (processRecord_some_iff stem project path obj d).mp hd with
        ⟨kvs, mkvs, t, content, rfl, ha, hm, he, hb, hbnd, rfl⟩
      refine ⟨?_, ⟨content, ?_, hb⟩, ?_⟩
      · simp [goodType, recType, ha]
      · simp [extractedContent, msgObj, hm, he]
      · simp [bindableFields, boundFields, msgObj, ha, hm, hbnd]
    · rintro ⟨hg, ⟨s, hs, hsb⟩, hbf⟩
      cases obj with
      | null => simp [goodType, recType, acceptedType] at hg
      | bool x => simp [goodType, recType, acceptedType] at hg
      | num x => simp [goodType, recType, acceptedType] at hg
      | str s0 => simp [goodType, recType, acceptedType] at hg
      | arr xs => simp [goodType, recType, acceptedType] at hg
      | obj kvs =>
        cases ha : acceptedType (jget kvs "type") with
        | none => rw [goodType, recType, ha] at hg; cases hg
        | some t =>
          cases hmo : msgObj (.obj kvs) with
          | none => rw [extractedContent, hmo] at hs; cases hs
          | some mkvs =>
            have hm := msgObj_eq hmo
            rw [extractedContent, hmo] at hs
            try dsimp only at hs
            cases he : extract_text_content (jgetD mkvs "content" (.str "")) with
            | error e => rw [he] at hs; cases hs
            | ok content =>
              rw [he] at hs
              injection hs with hs'
              subst hs'
              rw [bindableFields, boundFields] at hbf
              try dsimp only at hbf
              rw [ha, hmo] at hbf
              try dsimp only at hbf
              exact ⟨_, (processRecord_some_iff stem project path (.obj kvs) _).mpr
                ⟨kvs, mkvs, t, content, rfl, ha, hm, he, hsb, hbf, rfl⟩⟩
  · intro d hd
    rcases (processRecord_some_iff stem project path obj d).mp hd with
      ⟨kvs, mkvs, t, content, rfl, ha, hm, he, hb, hbnd, rfl⟩
    have hmo : msgObj (.obj kvs) = some mkvs := by
      rw [msgObj]
      try dsimp only
      rw [hm]
    cases hr : jget mkvs "role" with
    | some r =>
      left
      refine ⟨r, ?_, ?_⟩
      · rw [msgRoleField, hmo]
        try dsimp only
        exact hr
      · try dsimp only
        rw [jgetD, hr]
        rfl
    | none =>
      right
      constructor
      · rw [msgRoleField, hmo]
        try dsimp only
        exact hr
      · have ht := acceptedType_eq ha
        try dsimp only
        rw [jgetD, hr, recType]
        try dsimp only
        rw [ht]
        rfl

/-- C1 witness: a concrete accepted record produces a document, via the
amended iff. -/
theorem C1_witness : ∃ d, processRecord "f" "p" "/f" demoRecord = .ok (some d) :=
  (C1_amended "f" "p" "/f" demoRecord).1.mpr ⟨rfl, ⟨"hello", rfl, rfl⟩, rfl⟩

end ChatSearch
